import Mathlib

/-!
Verification of the chequebook cashout subsystem
(`pkg/settlement/swap/chequebook/cashout.go`).

The Go code is shallowly embedded: external collaborators (state store,
transaction service, cheque store, contract binding, notify callback) are
passed in as explicit values, machine-level types are modelled as follows:
`common.Address` and `common.Hash` become `Nat`, `*big.Int` becomes a
`BigInt` structure carrying its integer value plus representation junk
(two values with the same `val` model two distinct `big.Int` objects of
equal value; the nil pointer is identified with the zero value), and the
state store becomes an association list of key/action pairs together with
injectable get/put faults standing for I/O or serialization failures.
-/

namespace BeeCashout

/-- A 20-byte blockchain account address (`common.Address`). -/
abbrev Address := Nat

/-- A 32-byte transaction hash (`common.Hash`). -/
abbrev Hash := Nat

/-- A Go `*big.Int`: the integer value together with representation junk
(standing for pointer identity and internal slice details), which value
comparison via `Cmp` ignores. -/
structure BigInt where
  val : Int
  rep : Nat
deriving DecidableEq, Repr

/-- Go `big.Int.Cmp`: sign of the value comparison. -/
def BigInt.cmp (a b : BigInt) : Int :=
  if a.val < b.val then -1 else if b.val < a.val then 1 else 0

/-- Modelled from the spec: the `SignedCheque` record is defined outside the
sampled sources; per the spec it is an immutable record of chequebook
address, beneficiary address, cumulative payout and signature bytes. -/
structure SignedCheque where
  Chequebook : Address
  Beneficiary : Address
  CumulativePayout : BigInt
  Signature : List Nat
deriving DecidableEq, Repr

/-- CashChequeResult summarizes the result of a CashCheque or
CashChequeBeneficiary call (`cashout.go`). -/
structure CashChequeResult where
  Beneficiary : Address
  Recipient : Address
  Caller : Address
  TotalPayout : BigInt
  CumulativePayout : BigInt
  CallerPayout : BigInt
  Bounced : Bool
deriving DecidableEq, Repr

/-- cashoutAction is the data stored for a cashout (`cashout.go`). -/
structure cashoutAction where
  TxHash : Hash
  Cheque : SignedCheque
  Result : Option CashChequeResult
  Reverted : Bool
deriving DecidableEq, Repr

/-- CashoutStatus is the action plus its result (`cashout.go`). -/
structure CashoutStatus where
  TxHash : Hash
  Cheque : SignedCheque
  Result : Option CashChequeResult
  Reverted : Bool
deriving DecidableEq, Repr

/-- Errors crossing the embedded interfaces. Opaque backend errors carry a
numeric code; `wrapParse` and `wrapNotify` model the two `fmt.Errorf`
wrappings in `processCashChequeBeneficiaryReceipt`. -/
inductive Err where
  | errNotFound
  | errNoCashout
  | storeGetFault (code : Nat)
  | storePutFault (code : Nat)
  | chequeStoreFault (code : Nat)
  | abiPackFault (code : Nat)
  | sendFault (code : Nat)
  | bindingFault (code : Nat)
  | notifyFault (code : Nat)
  | wrapParse (e : Err)
  | wrapNotify (e : Err)
deriving DecidableEq, Repr

/-- A store key (a Go string, modelled as its character list). -/
abbrev Key := List Char

/-- The namespace of cashout keys: the literal string "cashout_". -/
def cashoutNs : Key := ['c', 'a', 's', 'h', 'o', 'u', 't', '_']

/-- Hex digit character for a value below 16 (lowercase, as Go %x). -/
def hexDigit (n : Nat) : Char :=
  if n < 10 then Char.ofNat (48 + n) else Char.ofNat (87 + n)

/-- Fixed-width hex rendering, most significant digit first; Go's %x on a
20-byte array emits exactly 40 zero-padded lowercase hex digits. -/
def hexDigits : Nat → Nat → List Char
  | 0, _ => []
  | w + 1, n => hexDigits w (n / 16) ++ [hexDigit (n % 16)]

/-- cashoutActionKey computes the store key for the last cashout action for
the chequebook: `fmt.Sprintf("cashout_%x", chequebook)`. -/
def cashoutActionKey (chequebook : Address) : Key :=
  cashoutNs ++ hexDigits 40 chequebook

/-- Boolean prefix test on keys (`store.Iterate` key-prefix matching). -/
def keyStartsWith : Key → Key → Bool
  | [], _ => true
  | _ :: _, [] => false
  | c :: p, d :: k => if c = d then keyStartsWith p k else false

/-- Association-list lookup for the store contents. -/
def lookupKey : List (Key × cashoutAction) → Key → Option cashoutAction
  | [], _ => none
  | e :: rest, k => if e.1 = k then some e.2 else lookupKey rest k

/-- Association-list update: overwrite the binding for a key, or append. -/
def setEntry : List (Key × cashoutAction) → Key → cashoutAction → List (Key × cashoutAction)
  | [], k, a => [(k, a)]
  | e :: rest, k, a => if e.1 = k then (k, a) :: rest else e :: setEntry rest k a

/-- The `storage.StateStorer` collaborator: persisted entries plus
injectable faults standing for backend I/O or serialization failures
(`getFault k = some e` makes `Get k` fail with `e`; similarly for Put). -/
structure StateStore where
  entries : List (Key × cashoutAction)
  getFault : Key → Option Err
  putFault : Key → Option Err

/-- Store Get: an injected fault is returned as-is; a missing key yields
`storage.ErrNotFound`. -/
def StateStore.get (st : StateStore) (key : Key) : Except Err cashoutAction :=
  match st.getFault key with
  | some e => .error e
  | none =>
    match lookupKey st.entries key with
    | some a => .ok a
    | none => .error .errNotFound

/-- Store Put: an injected fault is returned and the store is unchanged;
otherwise the binding for the key is overwritten. -/
def StateStore.put (st : StateStore) (key : Key) (a : cashoutAction) :
    Except Err StateStore :=
  match st.putFault key with
  | some e => .error e
  | none => .ok { st with entries := setEntry st.entries key a }

/-- The payload of a decoded ChequeCashed contract event. -/
structure ChequeCashedEvent where
  Beneficiary : Address
  Recipient : Address
  Caller : Address
  TotalPayout : BigInt
  CumulativePayout : BigInt
  CallerPayout : BigInt
deriving DecidableEq, Repr

/-- Outcome of one log decode attempt by the `SimpleSwapBinding`: ABI
decoding is dispatched on the log's event topic, so a log decodes as at
most one of the two events (matching the else-if chain in the parser). -/
inductive LogEvent where
  | cashed (e : ChequeCashedEvent)
  | bounced
  | neither
deriving DecidableEq, Repr

/-- A receipt log entry together with the (pure) outcome the contract
binding's parsers produce for it. -/
structure Log where
  address : Address
  event : LogEvent
deriving DecidableEq, Repr

/-- A transaction receipt (`types.Receipt`): hash, status, event logs.
`statusFailed` is `receipt.Status == types.ReceiptStatusFailed`. -/
structure Receipt where
  txHash : Hash
  statusFailed : Bool
  logs : List Log
deriving DecidableEq, Repr

/-- The zero-valued `CashChequeResult`, as produced by
`&CashChequeResult{Bounced: false}`: zero addresses, zero numeric values
(the nil `*big.Int` pointer is identified with the zero value),
`Bounced = false`. -/
def emptyResult : CashChequeResult :=
  { Beneficiary := 0, Recipient := 0, Caller := 0,
    TotalPayout := ⟨0, 0⟩, CumulativePayout := ⟨0, 0⟩, CallerPayout := ⟨0, 0⟩,
    Bounced := false }

/-- One iteration of the parser loop over `receipt.Logs`: a log from a
different address is skipped; a ChequeCashed decode overwrites the six
result fields; otherwise a ChequeBounced decode sets `Bounced`. -/
def applyLog (chequebookAddress : Address) (result : CashChequeResult)
    (log : Log) : CashChequeResult :=
  if log.address ≠ chequebookAddress then result
  else
    match log.event with
    | .cashed event =>
      { result with
        Beneficiary := event.Beneficiary
        Caller := event.Caller
        CallerPayout := event.CallerPayout
        TotalPayout := event.TotalPayout
        CumulativePayout := event.CumulativePayout
        Recipient := event.Recipient }
    | .bounced => { result with Bounced := true }
    | .neither => result

/-- parseCashChequeBeneficiaryReceipt processes the receipt from a
CashChequeBeneficiary transaction. `bindingFault` is the error returned by
`simpleSwapBindingFunc(chequebookAddress, backend)`, if any. -/
def cashoutService.parseCashChequeBeneficiaryReceipt (bindingFault : Option Err)
    (chequebookAddress : Address) (receipt : Receipt) :
    Except Err CashChequeResult :=
  match bindingFault with
  | some e => .error e
  | none => .ok (receipt.logs.foldl (applyLog chequebookAddress) emptyResult)

/-- Observable outcome of `processCashChequeBeneficiaryReceipt`: the
returned error (if any), the resulting store, and how many times
`notifyBouncedFunc` was invoked. -/
structure ProcessOutcome where
  result : Except Err Unit
  store : StateStore
  notifyCalls : Nat

/-- processCashChequeBeneficiaryReceipt (`cashout.go`): loads the persisted
action, ignores superseded receipts, records a revert on a failed status,
otherwise parses the receipt, persists the completed action and notifies on
bounce. `notifyRet` is what `notifyBouncedFunc(chequebook)` returns when it
is invoked (`none` = nil error). -/
def cashoutService.processCashChequeBeneficiaryReceipt (st : StateStore)
    (bindingFault : Option Err) (notifyRet : Option Err)
    (chequebook : Address) (receipt : Receipt) : ProcessOutcome :=
  match st.get (cashoutActionKey chequebook) with
  | .error e =>
    if e = .errNotFound then ⟨.error .errNoCashout, st, 0⟩ else ⟨.error e, st, 0⟩
  | .ok action =>
    if receipt.txHash ≠ action.TxHash then
      ⟨.ok (), st, 0⟩
    else if receipt.statusFailed then
      match st.put (cashoutActionKey chequebook)
          { TxHash := action.TxHash, Cheque := action.Cheque,
            Result := none, Reverted := true } with
      | .error e => ⟨.error e, st, 0⟩
      | .ok st2 => ⟨.ok (), st2, 0⟩
    else
      match cashoutService.parseCashChequeBeneficiaryReceipt bindingFault chequebook receipt with
      | .error e => ⟨.error (.wrapParse e), st, 0⟩
      | .ok result =>
        match st.put (cashoutActionKey chequebook)
            { TxHash := action.TxHash, Cheque := action.Cheque,
              Result := some result, Reverted := false } with
        | .error e => ⟨.error e, st, 0⟩
        | .ok st2 =>
          if result.Bounced then
            match notifyRet with
            | some e => ⟨.error (.wrapNotify e), st2, 1⟩
            | none => ⟨.ok (), st2, 1⟩
          else ⟨.ok (), st2, 0⟩

/-- A transaction request as assembled by CashCheque (`transaction.TxRequest`). -/
structure TxRequest where
  To : Address
  Data : List Nat
  GasPrice : Option BigInt
  GasLimit : Nat
  Value : BigInt
deriving DecidableEq, Repr

/-- Observable outcome of `CashCheque`: the returned hash and error, the
resulting store, and the monitors spawned (chequebook, txHash). -/
structure CashOutcome where
  txHash : Hash
  err : Option Err
  store : StateStore
  monitors : List (Address × Hash)

/-- CashCheque sends a cashout transaction for the last cheque of the
chequebook (`cashout.go`). `lastCheque` is the `ChequeStore.LastCheque`
result, `pack` the ABI encoding of `cashChequeBeneficiary(recipient,
cumulativePayout, signature)`, `send` the `transaction.Service.Send`
call on the assembled request. On any error a zero hash is returned. -/
def cashoutService.CashCheque (st : StateStore)
    (lastCheque : Except Err SignedCheque)
    (pack : Address → BigInt → List Nat → Except Err (List Nat))
    (send : TxRequest → Except Err Hash)
    (chequebook recipient : Address) : CashOutcome :=
  match lastCheque with
  | .error e => ⟨0, some e, st, []⟩
  | .ok cheque =>
    match pack recipient cheque.CumulativePayout cheque.Signature with
    | .error e => ⟨0, some e, st, []⟩
    | .ok callData =>
      let request : TxRequest :=
        { To := chequebook, Data := callData, GasPrice := none,
          GasLimit := 0, Value := ⟨0, 0⟩ }
      match send request with
      | .error e => ⟨0, some e, st, []⟩
      | .ok txHash =>
        match st.put (cashoutActionKey chequebook)
            { TxHash := txHash, Cheque := cheque,
              Result := none, Reverted := false } with
        | .error e => ⟨0, some e, st, []⟩
        | .ok st2 => ⟨txHash, none, st2, [(chequebook, txHash)]⟩

/-- The iteration body of `Start`: walk the persisted entries, and for each
key in the cashout namespace re-Get the action and spawn a monitor bound to
`(action.Cheque.Chequebook, action.TxHash)` when the action is in-flight.
A Get error aborts the iteration and is returned. -/
def startGo (st : StateStore) :
    List (Key × cashoutAction) → List (Address × Hash) × Option Err
  | [] => ([], none)
  | e :: rest =>
    if keyStartsWith cashoutNs e.1 then
      match st.get e.1 with
      | .error err => ([], some err)
      | .ok action =>
        if action.Result = none ∧ action.Reverted = false then
          let tail := startGo st rest
          ((action.Cheque.Chequebook, action.TxHash) :: tail.1, tail.2)
        else startGo st rest
    else startGo st rest

/-- Start starts monitoring past transactions (`cashout.go`): iterate the
store under the "cashout_" key namespace and resume a monitor for every
in-flight action. Returns the spawned monitors and the iteration error. -/
def cashoutService.Start (st : StateStore) : List (Address × Hash) × Option Err :=
  startGo st st.entries

/-- CashoutStatus gets the status of the latest cashout transaction for
the chequebook (`cashout.go`). -/
def cashoutService.CashoutStatus (st : StateStore)
    (chequebookAddress : Address) : Except Err CashoutStatus :=
  match st.get (cashoutActionKey chequebookAddress) with
  | .error e =>
    if e = .errNotFound then .error .errNoCashout else .error e
  | .ok action =>
    .ok { TxHash := action.TxHash, Cheque := action.Cheque,
          Result := action.Result, Reverted := action.Reverted }

/-- Equal compares two CashChequeResults (`cashout.go`): field by field,
with the numeric fields compared by `Cmp`, i.e. by integer value. -/
def CashChequeResult.Equal (r o : CashChequeResult) : Bool :=
  if r.Beneficiary ≠ o.Beneficiary then false
  else if r.Bounced ≠ o.Bounced then false
  else if r.Caller ≠ o.Caller then false
  else if BigInt.cmp r.CallerPayout o.CallerPayout ≠ 0 then false
  else if BigInt.cmp r.CumulativePayout o.CumulativePayout ≠ 0 then false
  else if r.Recipient ≠ o.Recipient then false
  else if BigInt.cmp r.TotalPayout o.TotalPayout ≠ 0 then false
  else true

/-- The well-formedness invariant on a persisted action: a populated result
forces `Reverted = false`, and a revert forces an absent result. -/
def actionWellFormed (b : cashoutAction) : Prop :=
  (b.Result ≠ none → b.Reverted = false) ∧ (b.Reverted = true → b.Result = none)

/-- The three action states of the lifecycle. -/
def inFlightState (b : cashoutAction) : Prop := b.Result = none ∧ b.Reverted = false

/-- Reverted state: no result, `Reverted` set. -/
def revertedState (b : cashoutAction) : Prop := b.Result = none ∧ b.Reverted = true

/-- Completed state: a result is present and `Reverted` is clear. -/
def completedState (b : cashoutAction) : Prop := b.Result ≠ none ∧ b.Reverted = false

/-- The cashed-event bridge: whether a log decodes as a ChequeCashed
event. -/
def isCashedLog (l : Log) : Bool :=
  match l.event with
  | .cashed _ => true
  | .bounced => false
  | .neither => false

/-- The six result fields that a ChequeCashed decode overwrites, bundled
for field-preservation statements. -/
def cashedFields (r : CashChequeResult) :
    Address × Address × BigInt × BigInt × BigInt × Address :=
  (r.Beneficiary, r.Caller, r.CallerPayout, r.TotalPayout,
    r.CumulativePayout, r.Recipient)

/-- Spec-side description of the monitors `Start` must spawn, written from
the spec's words: one monitor per persisted entry whose key is in the
cashout namespace and whose action is in-flight, bound to the cheque's
chequebook address and the action's transaction hash. -/
def startMonitorsSpec : List (Key × cashoutAction) → List (Address × Hash)
  | [] => []
  | e :: rest =>
    if keyStartsWith cashoutNs e.1 ∧ e.2.Result = none ∧ e.2.Reverted = false
    then (e.2.Cheque.Chequebook, e.2.TxHash) :: startMonitorsSpec rest
    else startMonitorsSpec rest

/-- Spec-side description of the error `Start` must return, written from
the spec's words: the first store error encountered while iterating the
cashout namespace. -/
def startErrSpec (st : StateStore) : List (Key × cashoutAction) → Option Err
  | [] => none
  | e :: rest =>
    if keyStartsWith cashoutNs e.1 then
      match st.getFault e.1 with
      | some err => some err
      | none => startErrSpec st rest
    else startErrSpec st rest

/-- A concrete signed cheque for chequebook address 5. -/
def cheque0 : SignedCheque := ⟨5, 9, ⟨100, 0⟩, [1, 2]⟩

/-- A concrete in-flight action with transaction hash 7. -/
def inFlightAction0 : cashoutAction := ⟨7, cheque0, none, false⟩

/-- A concrete fault-free store holding one in-flight action for
chequebook 5. -/
def store0 : StateStore :=
  ⟨[(cashoutActionKey 5, inFlightAction0)], fun _ => none, fun _ => none⟩

/-- A concrete empty fault-free store. -/
def emptyStore : StateStore := ⟨[], fun _ => none, fun _ => none⟩

/-- A concrete always-succeeding ABI packer. -/
def packOk : Address → BigInt → List Nat → Except Err (List Nat) :=
  fun _ _ _ => .ok [3]

/-- A concrete always-succeeding transaction submission returning hash 7. -/
def sendOk : TxRequest → Except Err Hash := fun _ => .ok 7

/-- A concrete ChequeCashed event payload. -/
def ev0 : ChequeCashedEvent := ⟨9, 10, 11, ⟨400, 0⟩, ⟨1000, 0⟩, ⟨5, 0⟩⟩

/-- A second concrete ChequeCashed event payload. -/
def ev1 : ChequeCashedEvent := ⟨12, 13, 14, ⟨5, 1⟩, ⟨6, 1⟩, ⟨7, 1⟩⟩

/-- A concrete store for the `Start` witness: an in-flight action under a
cashout key, a non-namespace key, and a completed action. -/
def store7 : StateStore :=
  ⟨[(cashoutActionKey 1, ⟨21, ⟨1, 9, ⟨50, 0⟩, []⟩, none, false⟩),
      (['x'], ⟨22, ⟨3, 9, ⟨60, 0⟩, []⟩, none, false⟩),
      (cashoutActionKey 2, ⟨23, ⟨2, 9, ⟨70, 0⟩, []⟩, some emptyResult, false⟩)],
    fun _ => none, fun _ => none⟩

/-- A concrete store whose single in-flight action sits under the key for
address 1 while its cheque names chequebook 2. -/
def store10 : StateStore :=
  ⟨[(cashoutActionKey 1, ⟨77, ⟨2, 9, ⟨80, 0⟩, []⟩, none, false⟩)],
    fun _ => none, fun _ => none⟩

lemma BigInt.cmp_eq_zero_iff (a b : BigInt) : BigInt.cmp a b = 0 ↔ a.val = b.val := by
  unfold BigInt.cmp
  split_ifs with h1 h2
  · constructor
    · intro h
      exact absurd h (by decide)
    · intro h
      omega
  · constructor
    · intro h
      exact absurd h (by decide)
    · intro h
      omega
  · constructor
    · intro h
      omega
    · intro h
      rfl

lemma Equal_eq_true_iff (r o : CashChequeResult) :
    r.Equal o = true ↔
      (r.Beneficiary = o.Beneficiary ∧ r.Bounced = o.Bounced ∧ r.Caller = o.Caller ∧
        r.CallerPayout.val = o.CallerPayout.val ∧
        r.CumulativePayout.val = o.CumulativePayout.val ∧
        r.Recipient = o.Recipient ∧ r.TotalPayout.val = o.TotalPayout.val) := by
  unfold CashChequeResult.Equal
  split_ifs with h1 h2 h3 h4 h5 h6 h7 <;>
    simp_all [BigInt.cmp_eq_zero_iff]

/-- C9: `CashChequeResult.Equal` is an equivalence relation — reflexive,
symmetric and transitive over all `CashChequeResult` values — and holds iff
every field is equal, the numeric fields (TotalPayout, CumulativePayout,
CallerPayout) being compared by integer value (`Cmp`) rather than by
representation; in particular two results differing only in numeric
representation are `Equal` without being identical. -/
theorem c9_equal_is_value_equivalence :
    (∀ r : CashChequeResult, r.Equal r = true) ∧
    (∀ r o : CashChequeResult, r.Equal o = true → o.Equal r = true) ∧
    (∀ r o p : CashChequeResult,
      r.Equal o = true → o.Equal p = true → r.Equal p = true) ∧
    (∀ r o : CashChequeResult,
      r.Equal o = true ↔
        (r.Beneficiary = o.Beneficiary ∧ r.Bounced = o.Bounced ∧
          r.Caller = o.Caller ∧ r.CallerPayout.val = o.CallerPayout.val ∧
          r.CumulativePayout.val = o.CumulativePayout.val ∧
          r.Recipient = o.Recipient ∧ r.TotalPayout.val = o.TotalPayout.val)) ∧
    (∃ r o : CashChequeResult, r.Equal o = true ∧ r ≠ o) := by
  refine ⟨?_, ?_, ?_, ?_, ?_⟩
  · intro r
    exact (Equal_eq_true_iff r r).mpr ⟨rfl, rfl, rfl, rfl, rfl, rfl, rfl⟩
  · intro r o h
    obtain ⟨h1, h2, h3, h4, h5, h6, h7⟩ := (Equal_eq_true_iff r o).mp h
    exact (Equal_eq_true_iff o r).mpr
      ⟨h1.symm, h2.symm, h3.symm, h4.symm, h5.symm, h6.symm, h7.symm⟩
  · intro r o p h h'
    obtain ⟨h1, h2, h3, h4, h5, h6, h7⟩ := (Equal_eq_true_iff r o).mp h
    obtain ⟨g1, g2, g3, g4, g5, g6, g7⟩ := (Equal_eq_true_iff o p).mp h'
    exact (Equal_eq_true_iff r p).mpr
      ⟨h1.trans g1, h2.trans g2, h3.trans g3, h4.trans g4,
        h5.trans g5, h6.trans g6, h7.trans g7⟩
  · exact Equal_eq_true_iff
  · exact ⟨emptyResult, { emptyResult with TotalPayout := ⟨0, 1⟩ },
      by decide, by decide⟩

/-- Witness for C9: symmetry and transitivity applied at concrete results
that differ only in numeric representation. -/
theorem c9_equal_is_value_equivalence_witness :
    ({ emptyResult with TotalPayout := ⟨0, 1⟩ } : CashChequeResult).Equal
        emptyResult = true ∧
    emptyResult.Equal { emptyResult with TotalPayout := ⟨0, 2⟩ } = true :=
  ⟨c9_equal_is_value_equivalence.2.1 emptyResult
      { emptyResult with TotalPayout := ⟨0, 1⟩ } (by decide),
    c9_equal_is_value_equivalence.2.2.1 emptyResult
      { emptyResult with TotalPayout := ⟨0, 1⟩ }
      { emptyResult with TotalPayout := ⟨0, 2⟩ } (by decide) (by decide)⟩

/-- C1: if the receipt's transaction hash differs from the persisted
action's `TxHash`, the receipt-processing routine returns without error,
performs no store write, and does not notify. -/
theorem c1_superseded_receipt_is_noop
    (st : StateStore) (bindingFault notifyRet : Option Err)
    (chequebook : Address) (receipt : Receipt) (action : cashoutAction)
    (hget : st.get (cashoutActionKey chequebook) = .ok action)
    (hne : receipt.txHash ≠ action.TxHash) :
    cashoutService.processCashChequeBeneficiaryReceipt st bindingFault notifyRet
      chequebook receipt = ⟨.ok (), st, 0⟩ := by
  unfold cashoutService.processCashChequeBeneficiaryReceipt
  rw [hget]
  simp [hne]

/-- Witness for C1: a receipt with hash 8 against the persisted action with
hash 7 leaves the store untouched. -/
theorem c1_superseded_receipt_is_noop_witness :
    cashoutService.processCashChequeBeneficiaryReceipt store0 none none 5
      ⟨8, false, []⟩ = ⟨.ok (), store0, 0⟩ :=
  c1_superseded_receipt_is_noop store0 none none 5 ⟨8, false, []⟩
    inFlightAction0 (by rfl) (by decide)

/-- C4: a matching receipt with failed status makes the routine persist
the reverted action (same hash, same cheque, no result, `Reverted = true`)
under the same key, and the notify-bounced callback is never invoked on
this path. -/
theorem c4_failed_status_records_revert
    (st : StateStore) (bindingFault notifyRet : Option Err)
    (chequebook : Address) (receipt : Receipt) (action : cashoutAction)
    (hget : st.get (cashoutActionKey chequebook) = .ok action)
    (hhash : receipt.txHash = action.TxHash)
    (hfail : receipt.statusFailed = true) :
    (cashoutService.processCashChequeBeneficiaryReceipt st bindingFault
        notifyRet chequebook receipt).notifyCalls = 0 ∧
    (st.putFault (cashoutActionKey chequebook) = none →
      cashoutService.processCashChequeBeneficiaryReceipt st bindingFault
          notifyRet chequebook receipt =
        ⟨.ok (),
          ⟨setEntry st.entries (cashoutActionKey chequebook)
              ⟨action.TxHash, action.Cheque, none, true⟩,
            st.getFault, st.putFault⟩, 0⟩) := by
  unfold cashoutService.processCashChequeBeneficiaryReceipt
  rw [hget]
  constructor
  · cases hpf : st.putFault (cashoutActionKey chequebook) <;>
      simp [hhash, hfail, StateStore.put, hpf]
  · intro hput
    simp [hhash, hfail, StateStore.put, hput]

/-- Witness for C4: a failed receipt for hash 7 rewrites the action for
chequebook 5 in place as reverted, with zero notifications. -/
theorem c4_failed_status_records_revert_witness :
    (cashoutService.processCashChequeBeneficiaryReceipt store0 none none 5
        ⟨7, true, []⟩).notifyCalls = 0 ∧
    (store0.putFault (cashoutActionKey 5) = none →
      cashoutService.processCashChequeBeneficiaryReceipt store0 none none 5
          ⟨7, true, []⟩ =
        ⟨.ok (),
          ⟨setEntry store0.entries (cashoutActionKey 5)
              ⟨inFlightAction0.TxHash, inFlightAction0.Cheque, none, true⟩,
            store0.getFault, store0.putFault⟩, 0⟩) :=
  c4_failed_status_records_revert store0 none none 5 ⟨7, true, []⟩
    inFlightAction0 (by rfl) (by decide) (by decide)

/-- C5: on a matching, successful, successfully parsed receipt the routine
persists the completed action first; if the parsed result bounced it then
invokes the notify-bounced callback exactly once and propagates the
callback's error, and if it did not bounce the callback is not invoked. -/
theorem c5_bounce_notifies_after_persist
    (st : StateStore) (notifyRet : Option Err)
    (chequebook : Address) (receipt : Receipt) (action : cashoutAction)
    (hget : st.get (cashoutActionKey chequebook) = .ok action)
    (hhash : receipt.txHash = action.TxHash)
    (hok : receipt.statusFailed = false)
    (hput : st.putFault (cashoutActionKey chequebook) = none) :
    ((receipt.logs.foldl (applyLog chequebook) emptyResult).Bounced = true →
      cashoutService.processCashChequeBeneficiaryReceipt st none notifyRet
          chequebook receipt =
        ⟨(match notifyRet with
            | some e => .error (.wrapNotify e)
            | none => .ok ()),
          ⟨setEntry st.entries (cashoutActionKey chequebook)
              ⟨action.TxHash, action.Cheque,
                some (receipt.logs.foldl (applyLog chequebook) emptyResult),
                false⟩,
            st.getFault, st.putFault⟩, 1⟩) ∧
    ((receipt.logs.foldl (applyLog chequebook) emptyResult).Bounced = false →
      cashoutService.processCashChequeBeneficiaryReceipt st none notifyRet
          chequebook receipt =
        ⟨.ok (),
          ⟨setEntry st.entries (cashoutActionKey chequebook)
              ⟨action.TxHash, action.Cheque,
                some (receipt.logs.foldl (applyLog chequebook) emptyResult),
                false⟩,
            st.getFault, st.putFault⟩, 0⟩) := by
  unfold cashoutService.processCashChequeBeneficiaryReceipt
    cashoutService.parseCashChequeBeneficiaryReceipt
  rw [hget]
  constructor
  · intro hb
    cases notifyRet <;>
      simp [hhash, hok, hb, StateStore.put, hput]
  · intro hb
    simp [hhash, hok, hb, StateStore.put, hput]

/-- Witness for C5: a matching successful receipt with one bounced log at
chequebook 5 persists the completed bounced result and notifies once; one
with no logs persists a clean result and does not notify. -/
theorem c5_bounce_notifies_after_persist_witness :
    (((⟨7, false, [⟨5, .bounced⟩]⟩ : Receipt).logs.foldl (applyLog 5)
        emptyResult).Bounced = true →
      cashoutService.processCashChequeBeneficiaryReceipt store0 none
          (some (.notifyFault 3)) 5 ⟨7, false, [⟨5, .bounced⟩]⟩ =
        ⟨.error (.wrapNotify (.notifyFault 3)),
          ⟨setEntry store0.entries (cashoutActionKey 5)
              ⟨inFlightAction0.TxHash, inFlightAction0.Cheque,
                some ((⟨7, false, [⟨5, .bounced⟩]⟩ : Receipt).logs.foldl
                  (applyLog 5) emptyResult),
                false⟩,
            store0.getFault, store0.putFault⟩, 1⟩) ∧
    (((⟨7, false, []⟩ : Receipt).logs.foldl (applyLog 5)
        emptyResult).Bounced = false →
      cashoutService.processCashChequeBeneficiaryReceipt store0 none
          (some (.notifyFault 3)) 5 ⟨7, false, []⟩ =
        ⟨.ok (),
          ⟨setEntry store0.entries (cashoutActionKey 5)
              ⟨inFlightAction0.TxHash, inFlightAction0.Cheque,
                some ((⟨7, false, []⟩ : Receipt).logs.foldl
                  (applyLog 5) emptyResult),
                false⟩,
            store0.getFault, store0.putFault⟩, 0⟩) :=
  ⟨(c5_bounce_notifies_after_persist store0 (some (.notifyFault 3)) 5
      ⟨7, false, [⟨5, .bounced⟩]⟩ inFlightAction0 (by rfl) (by decide)
      (by decide) (by decide)).1,
    (c5_bounce_notifies_after_persist store0 (some (.notifyFault 3)) 5
      ⟨7, false, []⟩ inFlightAction0 (by rfl) (by decide)
      (by decide) (by decide)).2⟩

/-- C8: `CashoutStatus` returns the `NoCashout` error when no action is
persisted for the chequebook, and otherwise a status whose four fields are
identical to the persisted action's fields. -/
theorem c8_cashout_status_projection
    (st : StateStore) (chequebookAddress : Address)
    (hfault : st.getFault (cashoutActionKey chequebookAddress) = none) :
    (lookupKey st.entries (cashoutActionKey chequebookAddress) = none →
      cashoutService.CashoutStatus st chequebookAddress = .error .errNoCashout) ∧
    (∀ action : cashoutAction,
      lookupKey st.entries (cashoutActionKey chequebookAddress) = some action →
      cashoutService.CashoutStatus st chequebookAddress =
        .ok ⟨action.TxHash, action.Cheque, action.Result, action.Reverted⟩) := by
  unfold cashoutService.CashoutStatus StateStore.get
  rw [hfault]
  constructor
  · intro h
    rw [h]
    simp
  · intro action h
    rw [h]

/-- Witness for C8: chequebook 5 has the persisted in-flight action and its
status mirrors it; chequebook 6 has none and gets `NoCashout`. -/
theorem c8_cashout_status_projection_witness :
    cashoutService.CashoutStatus store0 5 =
      .ok ⟨inFlightAction0.TxHash, inFlightAction0.Cheque,
        inFlightAction0.Result, inFlightAction0.Reverted⟩ ∧
    cashoutService.CashoutStatus store0 6 = .error .errNoCashout :=
  ⟨(c8_cashout_status_projection store0 5 (by rfl)).2 inFlightAction0 (by rfl),
    (c8_cashout_status_projection store0 6 (by rfl)).1 (by decide)⟩

/-- C6: `CashCheque` surfaces the first error of any step and
short-circuits: a cheque-store, ABI-encoding or submission error is
returned with a zero hash, no store write and no monitor; a Put failure
after submission is returned as an error with no monitor spawned; on full
success it persists the in-flight action and returns the submitted hash. -/
theorem c6_cashcheque_short_circuits
    (st : StateStore) (pack : Address → BigInt → List Nat → Except Err (List Nat))
    (send : TxRequest → Except Err Hash) (chequebook recipient : Address) :
    (∀ e : Err,
      cashoutService.CashCheque st (.error e) pack send chequebook recipient =
        ⟨0, some e, st, []⟩) ∧
    (∀ (cheque : SignedCheque) (e : Err),
      pack recipient cheque.CumulativePayout cheque.Signature = .error e →
      cashoutService.CashCheque st (.ok cheque) pack send chequebook recipient =
        ⟨0, some e, st, []⟩) ∧
    (∀ (cheque : SignedCheque) (callData : List Nat) (e : Err),
      pack recipient cheque.CumulativePayout cheque.Signature = .ok callData →
      send ⟨chequebook, callData, none, 0, ⟨0, 0⟩⟩ = .error e →
      cashoutService.CashCheque st (.ok cheque) pack send chequebook recipient =
        ⟨0, some e, st, []⟩) ∧
    (∀ (cheque : SignedCheque) (callData : List Nat) (txHash : Hash) (e : Err),
      pack recipient cheque.CumulativePayout cheque.Signature = .ok callData →
      send ⟨chequebook, callData, none, 0, ⟨0, 0⟩⟩ = .ok txHash →
      st.putFault (cashoutActionKey chequebook) = some e →
      cashoutService.CashCheque st (.ok cheque) pack send chequebook recipient =
        ⟨0, some e, st, []⟩) ∧
    (∀ (cheque : SignedCheque) (callData : List Nat) (txHash : Hash),
      pack recipient cheque.CumulativePayout cheque.Signature = .ok callData →
      send ⟨chequebook, callData, none, 0, ⟨0, 0⟩⟩ = .ok txHash →
      st.putFault (cashoutActionKey chequebook) = none →
      cashoutService.CashCheque st (.ok cheque) pack send chequebook recipient =
        ⟨txHash, none,
          ⟨setEntry st.entries (cashoutActionKey chequebook)
              ⟨txHash, cheque, none, false⟩,
            st.getFault, st.putFault⟩, [(chequebook, txHash)]⟩) := by
  refine ⟨?_, ?_, ?_, ?_, ?_⟩
  · intro e
    rfl
  · intro cheque e hpack
    simp [cashoutService.CashCheque, hpack]
  · intro cheque callData e hpack hsend
    simp [cashoutService.CashCheque, hpack, hsend]
  · intro cheque callData txHash e hpack hsend hput
    simp [cashoutService.CashCheque, hpack, hsend, StateStore.put, hput]
  · intro cheque callData txHash hpack hsend hput
    simp [cashoutService.CashCheque, hpack, hsend, StateStore.put, hput]

/-- Witness for C6: each of the five paths at concrete stores, packers and
senders. -/
theorem c6_cashcheque_short_circuits_witness :
    (cashoutService.CashCheque emptyStore (.error (.chequeStoreFault 1))
        packOk sendOk 5 9 = ⟨0, some (.chequeStoreFault 1), emptyStore, []⟩) ∧
    (cashoutService.CashCheque emptyStore (.ok cheque0)
        (fun _ _ _ => .error (.abiPackFault 2)) sendOk 5 9 =
      ⟨0, some (.abiPackFault 2), emptyStore, []⟩) ∧
    (cashoutService.CashCheque emptyStore (.ok cheque0) packOk
        (fun _ => .error (.sendFault 4)) 5 9 =
      ⟨0, some (.sendFault 4), emptyStore, []⟩) ∧
    (cashoutService.CashCheque
        ⟨[], fun _ => none, fun _ => some (.storePutFault 9)⟩ (.ok cheque0)
        packOk sendOk 5 9 =
      ⟨0, some (.storePutFault 9),
        ⟨[], fun _ => none, fun _ => some (.storePutFault 9)⟩, []⟩) ∧
    (cashoutService.CashCheque emptyStore (.ok cheque0) packOk sendOk 5 9 =
      ⟨7, none,
        ⟨setEntry emptyStore.entries (cashoutActionKey 5) ⟨7, cheque0, none, false⟩,
          emptyStore.getFault, emptyStore.putFault⟩, [(5, 7)]⟩) :=
  ⟨(c6_cashcheque_short_circuits emptyStore packOk sendOk 5 9).1
      (.chequeStoreFault 1),
    (c6_cashcheque_short_circuits emptyStore
        (fun _ _ _ => .error (.abiPackFault 2)) sendOk 5 9).2.1 cheque0
      (.abiPackFault 2) rfl,
    (c6_cashcheque_short_circuits emptyStore packOk
        (fun _ => .error (.sendFault 4)) 5 9).2.2.1 cheque0 [3]
      (.sendFault 4) rfl rfl,
    (c6_cashcheque_short_circuits
        ⟨[], fun _ => none, fun _ => some (.storePutFault 9)⟩
        packOk sendOk 5 9).2.2.2.1 cheque0 [3] 7 (.storePutFault 9)
      rfl rfl rfl,
    (c6_cashcheque_short_circuits emptyStore packOk sendOk 5 9).2.2.2.2
      cheque0 [3] 7 rfl rfl rfl⟩

lemma lookupKey_nil (k : Key) : lookupKey [] k = none := rfl

lemma lookupKey_cons (e : Key × cashoutAction)
    (rest : List (Key × cashoutAction)) (k : Key) :
    lookupKey (e :: rest) k =
      if e.1 = k then some e.2 else lookupKey rest k := rfl

lemma setEntry_nil (k : Key) (a : cashoutAction) :
    setEntry [] k a = [(k, a)] := rfl

lemma setEntry_cons (e : Key × cashoutAction)
    (rest : List (Key × cashoutAction)) (k : Key) (a : cashoutAction) :
    setEntry (e :: rest) k a =
      if e.1 = k then (k, a) :: rest else e :: setEntry rest k a := rfl

lemma lookupKey_setEntry (l : List (Key × cashoutAction)) (k : Key)
    (a : cashoutAction) (k2 : Key) :
    lookupKey (setEntry l k a) k2 =
      if k = k2 then some a else lookupKey l k2 := by
  induction l with
  | nil => simp [setEntry_nil, lookupKey_nil, lookupKey_cons]
  | cons e rest ih =>
    rw [setEntry_cons]
    by_cases h1 : e.1 = k
    · rw [if_pos h1, lookupKey_cons, lookupKey_cons]
      by_cases h2 : k = k2
      · simp [h2]
      · rw [if_neg h2, if_neg h2, if_neg (h1 ▸ h2)]
    · rw [if_neg h1, lookupKey_cons, ih, lookupKey_cons]
      by_cases h2 : k = k2
      · subst h2
        rw [if_pos rfl, if_pos rfl, if_neg h1]
      · rw [if_neg h2, if_neg h2]

lemma process_store_entries_shape (st : StateStore)
    (bindingFault notifyRet : Option Err) (chequebook : Address)
    (receipt : Receipt) :
    (cashoutService.processCashChequeBeneficiaryReceipt st bindingFault
        notifyRet chequebook receipt).store.entries = st.entries ∨
    ∃ wa : cashoutAction, actionWellFormed wa ∧
      (cashoutService.processCashChequeBeneficiaryReceipt st bindingFault
          notifyRet chequebook receipt).store.entries =
        setEntry st.entries (cashoutActionKey chequebook) wa := by
  unfold cashoutService.processCashChequeBeneficiaryReceipt
    cashoutService.parseCashChequeBeneficiaryReceipt
  cases hg : st.get (cashoutActionKey chequebook) with
  | error e =>
    by_cases he : e = Err.errNotFound <;> simp [he]
  | ok action =>
    by_cases hh : receipt.txHash ≠ action.TxHash
    · simp [hh]
    · rw [not_ne_iff] at hh
      by_cases hf : receipt.statusFailed
      · cases hpf : st.putFault (cashoutActionKey chequebook) with
        | some e2 => simp [hh, hf, StateStore.put, hpf]
        | none =>
          simp only [hh, hf, StateStore.put, hpf]
          right
          exact ⟨⟨action.TxHash, action.Cheque, none, true⟩,
            by simp [actionWellFormed], by simp⟩
      · cases bindingFault with
        | some e2 => simp [hh, hf]
        | none =>
          cases hpf : st.putFault (cashoutActionKey chequebook) with
          | some e2 => simp [hh, hf, StateStore.put, hpf]
          | none =>
            by_cases hb :
              (receipt.logs.foldl (applyLog chequebook) emptyResult).Bounced
            · cases notifyRet with
              | some e3 =>
                simp only [hh, hf, StateStore.put, hpf, hb]
                right
                exact ⟨⟨action.TxHash, action.Cheque,
                    some (receipt.logs.foldl (applyLog chequebook) emptyResult),
                    false⟩,
                  by simp [actionWellFormed], by simp⟩
              | none =>
                simp only [hh, hf, StateStore.put, hpf, hb]
                right
                exact ⟨⟨action.TxHash, action.Cheque,
                    some (receipt.logs.foldl (applyLog chequebook) emptyResult),
                    false⟩,
                  by simp [actionWellFormed], by simp⟩
            · rw [Bool.not_eq_true] at hb
              simp only [hh, hf, StateStore.put, hpf, hb]
              right
              exact ⟨⟨action.TxHash, action.Cheque,
                  some (receipt.logs.foldl (applyLog chequebook) emptyResult),
                  false⟩,
                by simp [actionWellFormed], by simp⟩

lemma cashcheque_store_entries_shape (st : StateStore)
    (lastCheque : Except Err SignedCheque)
    (pack : Address → BigInt → List Nat → Except Err (List Nat))
    (send : TxRequest → Except Err Hash) (chequebook recipient : Address) :
    (cashoutService.CashCheque st lastCheque pack send chequebook
        recipient).store.entries = st.entries ∨
    ∃ wa : cashoutAction, actionWellFormed wa ∧
      (cashoutService.CashCheque st lastCheque pack send chequebook
          recipient).store.entries =
        setEntry st.entries (cashoutActionKey chequebook) wa := by
  unfold cashoutService.CashCheque
  cases lastCheque with
  | error e => simp
  | ok cheque =>
    cases hp : pack recipient cheque.CumulativePayout cheque.Signature with
    | error e => simp [hp]
    | ok callData =>
      cases hs : send ⟨chequebook, callData, none, 0, ⟨0, 0⟩⟩ with
      | error e => simp [hp, hs]
      | ok txHash =>
        cases hpf : st.putFault (cashoutActionKey chequebook) with
        | some e => simp [hp, hs, StateStore.put, hpf]
        | none =>
          simp only [hp, hs, StateStore.put, hpf]
          right
          exact ⟨⟨txHash, cheque, none, false⟩,
            by simp [actionWellFormed], by simp⟩

lemma written_action_cases (st : StateStore) (chequebook : Address)
    (entries2 : List (Key × cashoutAction)) (wa : cashoutAction)
    (hwf : actionWellFormed wa)
    (hs : entries2 = setEntry st.entries (cashoutActionKey chequebook) wa)
    (k : Key) (b : cashoutAction) (h : lookupKey entries2 k = some b) :
    lookupKey st.entries k = some b ∨ actionWellFormed b := by
  rw [hs, lookupKey_setEntry] at h
  by_cases hk : cashoutActionKey chequebook = k
  · rw [if_pos hk] at h
    right
    cases h
    exact hwf
  · rw [if_neg hk] at h
    exact Or.inl h

/-- C2: every action written by `CashCheque` or by the receipt-processing
routine satisfies `result ≠ ∅ → reverted = false` and
`reverted = true → result = ∅`, hence lies in exactly one of the three
states in-flight, reverted, completed. -/
theorem c2_written_actions_well_formed :
    (∀ (st : StateStore) (bindingFault notifyRet : Option Err)
        (chequebook : Address) (receipt : Receipt) (k : Key)
        (b : cashoutAction),
      lookupKey (cashoutService.processCashChequeBeneficiaryReceipt st
          bindingFault notifyRet chequebook receipt).store.entries k = some b →
      lookupKey st.entries k = some b ∨ actionWellFormed b) ∧
    (∀ (st : StateStore) (lastCheque : Except Err SignedCheque)
        (pack : Address → BigInt → List Nat → Except Err (List Nat))
        (send : TxRequest → Except Err Hash)
        (chequebook recipient : Address) (k : Key) (b : cashoutAction),
      lookupKey (cashoutService.CashCheque st lastCheque pack send chequebook
          recipient).store.entries k = some b →
      lookupKey st.entries k = some b ∨ actionWellFormed b) ∧
    (∀ b : cashoutAction, actionWellFormed b →
      (inFlightState b ∧ ¬revertedState b ∧ ¬completedState b) ∨
      (revertedState b ∧ ¬inFlightState b ∧ ¬completedState b) ∨
      (completedState b ∧ ¬inFlightState b ∧ ¬revertedState b)) := by
  refine ⟨?_, ?_, ?_⟩
  · intro st bindingFault notifyRet chequebook receipt k b h
    rcases process_store_entries_shape st bindingFault notifyRet chequebook
        receipt with hs | ⟨wa, hwf, hs⟩
    · rw [hs] at h
      exact Or.inl h
    · exact written_action_cases st chequebook _ wa hwf hs k b h
  · intro st lastCheque pack send chequebook recipient k b h
    rcases cashcheque_store_entries_shape st lastCheque pack send chequebook
        recipient with hs | ⟨wa, hwf, hs⟩
    · rw [hs] at h
      exact Or.inl h
    · exact written_action_cases st chequebook _ wa hwf hs k b h
  · intro b hwf
    obtain ⟨h1, h2⟩ := hwf
    unfold inFlightState revertedState completedState
    cases hr : b.Result with
    | none =>
      cases hv : b.Reverted with
      | false => simp
      | true => simp
    | some r =>
      have : b.Reverted = false := h1 (by simp [hr])
      simp [this, hr]

/-- Witness for C2: the action rewritten by a failed receipt, the action
written by a successful `CashCheque`, and the trichotomy at the concrete
in-flight action. -/
theorem c2_written_actions_well_formed_witness :
    (lookupKey store0.entries (cashoutActionKey 5) =
        some ⟨7, cheque0, none, true⟩ ∨
      actionWellFormed ⟨7, cheque0, none, true⟩) ∧
    (lookupKey emptyStore.entries (cashoutActionKey 5) =
        some ⟨7, cheque0, none, false⟩ ∨
      actionWellFormed ⟨7, cheque0, none, false⟩) ∧
    ((inFlightState inFlightAction0 ∧ ¬revertedState inFlightAction0 ∧
        ¬completedState inFlightAction0) ∨
      (revertedState inFlightAction0 ∧ ¬inFlightState inFlightAction0 ∧
        ¬completedState inFlightAction0) ∨
      (completedState inFlightAction0 ∧ ¬inFlightState inFlightAction0 ∧
        ¬revertedState inFlightAction0)) :=
  ⟨c2_written_actions_well_formed.1 store0 none none 5 ⟨7, true, []⟩
      (cashoutActionKey 5) ⟨7, cheque0, none, true⟩ (by decide),
    c2_written_actions_well_formed.2.1 emptyStore (.ok cheque0) packOk sendOk
      5 9 (cashoutActionKey 5) ⟨7, cheque0, none, false⟩ (by decide),
    c2_written_actions_well_formed.2.2 inFlightAction0
      (by simp [actionWellFormed, inFlightAction0])⟩

lemma applyLog_other_address (cb : Address) (r : CashChequeResult) (l : Log)
    (h : ¬l.address = cb) : applyLog cb r l = r := by
  simp [applyLog, h]

lemma foldl_applyLog_filter (cb : Address) :
    ∀ (logs : List Log) (r : CashChequeResult),
      logs.foldl (applyLog cb) r =
        (logs.filter (fun l => decide (l.address = cb))).foldl (applyLog cb) r := by
  intro logs
  induction logs with
  | nil => intro r; rfl
  | cons l rest ih =>
    intro r
    by_cases h : l.address = cb
    · rw [List.foldl_cons, List.filter_cons, if_pos (by simp [h]),
        List.foldl_cons]
      exact ih _
    · rw [List.foldl_cons, applyLog_other_address cb r l h,
        List.filter_cons, if_neg (by simp [h])]
      exact ih r

lemma applyLog_bounced_mono (cb : Address) (r : CashChequeResult) (l : Log)
    (h : r.Bounced = true) : (applyLog cb r l).Bounced = true := by
  unfold applyLog
  split_ifs with hne
  · exact h
  · cases hl : l.event <;> simp [hl, h]

lemma foldl_applyLog_bounced_mono (cb : Address) :
    ∀ (logs : List Log) (r : CashChequeResult), r.Bounced = true →
      (logs.foldl (applyLog cb) r).Bounced = true := by
  intro logs
  induction logs with
  | nil => intro r h; exact h
  | cons l rest ih =>
    intro r h
    exact ih _ (applyLog_bounced_mono cb r l h)

lemma applyLog_preserves_cashedFields (cb : Address) (r : CashChequeResult)
    (l : Log) (h : l.address = cb → isCashedLog l = false) :
    cashedFields (applyLog cb r l) = cashedFields r := by
  unfold applyLog
  split_ifs with hne
  · rfl
  · have haddr : l.address = cb := not_ne_iff.mp hne
    cases hl : l.event with
    | cashed e =>
      have hc := h haddr
      simp [isCashedLog, hl] at hc
    | bounced => simp [hl, cashedFields]
    | neither => simp [hl]

lemma foldl_preserves_cashedFields (cb : Address) :
    ∀ (logs : List Log),
      (∀ l ∈ logs, l.address = cb → isCashedLog l = false) →
      ∀ r : CashChequeResult,
        cashedFields (logs.foldl (applyLog cb) r) = cashedFields r := by
  intro logs
  induction logs with
  | nil => intro _ r; rfl
  | cons l rest ih =>
    intro h r
    rw [List.foldl_cons,
      ih (fun l2 h2 => h l2 (List.mem_cons_of_mem l h2)),
      applyLog_preserves_cashedFields cb r l (h l (List.mem_cons_self l rest))]

lemma applyLog_neutral (cb : Address) (r : CashChequeResult) (l : Log)
    (h : ¬l.address = cb ∨ l.event = .neither) : applyLog cb r l = r := by
  rcases h with h | h
  · exact applyLog_other_address cb r l h
  · unfold applyLog
    split_ifs
    · rfl
    · simp [h]

lemma foldl_applyLog_neutral (cb : Address) :
    ∀ (logs : List Log),
      (∀ l ∈ logs, ¬l.address = cb ∨ l.event = .neither) →
      ∀ r : CashChequeResult, logs.foldl (applyLog cb) r = r := by
  intro logs
  induction logs with
  | nil => intro _ r; rfl
  | cons l rest ih =>
    intro h r
    rw [List.foldl_cons, applyLog_neutral cb r l (h l (List.mem_cons_self l rest)),
      ih (fun l2 h2 => h l2 (List.mem_cons_of_mem l h2))]

/-- C3: the parser ignores logs from other addresses (parsing is invariant
under filtering logs to the chequebook address); a ChequeCashed decode
overwrites the six result fields so the last such decode wins (a cashed
log followed only by non-cashed logs determines the fields); a
ChequeBounced decode sets `Bounced`; and a receipt with no matching event
for the chequebook parses successfully to the zero result with
`Bounced = false`. -/
theorem c3_parser_rules (chequebookAddress : Address) :
    (∀ (txh : Hash) (sf : Bool) (logs : List Log),
      cashoutService.parseCashChequeBeneficiaryReceipt none chequebookAddress
          ⟨txh, sf, logs⟩ =
        cashoutService.parseCashChequeBeneficiaryReceipt none chequebookAddress
          ⟨txh, sf, logs.filter (fun l => decide (l.address = chequebookAddress))⟩) ∧
    (∀ (pre post : List Log) (l : Log) (e : ChequeCashedEvent)
        (r : CashChequeResult),
      l.address = chequebookAddress → l.event = .cashed e →
      (∀ l2 ∈ post, l2.address = chequebookAddress → isCashedLog l2 = false) →
      cashedFields ((pre ++ l :: post).foldl (applyLog chequebookAddress) r) =
        (e.Beneficiary, e.Caller, e.CallerPayout, e.TotalPayout,
          e.CumulativePayout, e.Recipient)) ∧
    (∀ (logs : List Log) (l : Log) (r : CashChequeResult),
      l ∈ logs → l.address = chequebookAddress → l.event = .bounced →
      (logs.foldl (applyLog chequebookAddress) r).Bounced = true) ∧
    (∀ (txh : Hash) (sf : Bool) (logs : List Log),
      (∀ l ∈ logs, ¬l.address = chequebookAddress ∨ l.event = .neither) →
      cashoutService.parseCashChequeBeneficiaryReceipt none chequebookAddress
        ⟨txh, sf, logs⟩ = .ok emptyResult) := by
  refine ⟨?_, ?_, ?_, ?_⟩
  · intro txh sf logs
    unfold cashoutService.parseCashChequeBeneficiaryReceipt
    exact congrArg Except.ok (foldl_applyLog_filter chequebookAddress logs emptyResult)
  · intro pre post l e r haddr hev hpost
    rw [List.foldl_append, List.foldl_cons,
      foldl_preserves_cashedFields chequebookAddress post hpost]
    simp [applyLog, haddr, hev, cashedFields]
  · intro logs
    induction logs with
    | nil =>
      intro l r hmem
      cases hmem
    | cons x rest ih =>
      intro l r hmem haddr hev
      rcases List.mem_cons.mp hmem with h | h
      · subst h
        rw [List.foldl_cons]
        apply foldl_applyLog_bounced_mono
        simp [applyLog, haddr, hev]
      · rw [List.foldl_cons]
        exact ih l _ h haddr hev
  · intro txh sf logs h
    unfold cashoutService.parseCashChequeBeneficiaryReceipt
    exact congrArg Except.ok (foldl_applyLog_neutral chequebookAddress logs h emptyResult)

/-- Witness for C3: the last cashed decode wins over an earlier one with a
trailing bounced log, a bounced log in scope sets `Bounced`, and a receipt
whose logs are foreign or undecodable parses to the zero result. -/
theorem c3_parser_rules_witness :
    cashedFields ((([⟨5, .cashed ev1⟩] : List Log) ++
        (⟨5, .cashed ev0⟩ : Log) :: [⟨5, .bounced⟩, ⟨6, .cashed ev1⟩]).foldl
        (applyLog 5) emptyResult) =
      (ev0.Beneficiary, ev0.Caller, ev0.CallerPayout, ev0.TotalPayout,
        ev0.CumulativePayout, ev0.Recipient) ∧
    (([⟨5, .cashed ev0⟩, ⟨5, .bounced⟩] : List Log).foldl (applyLog 5)
        emptyResult).Bounced = true ∧
    cashoutService.parseCashChequeBeneficiaryReceipt none 5
      ⟨1, false, [⟨4, .cashed ev0⟩, ⟨5, .neither⟩]⟩ = .ok emptyResult :=
  ⟨(c3_parser_rules 5).2.1 [⟨5, .cashed ev1⟩] [⟨5, .bounced⟩, ⟨6, .cashed ev1⟩]
      ⟨5, .cashed ev0⟩ ev0 emptyResult rfl rfl (by decide),
    (c3_parser_rules 5).2.2.1 [⟨5, .cashed ev0⟩, ⟨5, .bounced⟩] ⟨5, .bounced⟩
      emptyResult (by decide) rfl rfl,
    (c3_parser_rules 5).2.2.2 1 false [⟨4, .cashed ev0⟩, ⟨5, .neither⟩]
      (by decide)⟩

lemma hexDigit_inj :
    ∀ m, m < 16 → ∀ n, n < 16 → hexDigit m = hexDigit n → m = n := by
  decide

lemma hexDigits_length : ∀ (w n : Nat), (hexDigits w n).length = w := by
  intro w
  induction w with
  | zero => intro n; rfl
  | succ w ih =>
    intro n
    simp [hexDigits, ih]

lemma hexDigits_inj :
    ∀ (w m n : Nat), m < 16 ^ w → n < 16 ^ w →
      hexDigits w m = hexDigits w n → m = n := by
  intro w
  induction w with
  | zero =>
    intro m n hm hn _
    simp [pow_zero] at hm hn
    omega
  | succ w ih =>
    intro m n hm hn h
    simp only [hexDigits] at h
    obtain ⟨h1, h2⟩ := List.append_inj h
      ((hexDigits_length w (m / 16)).trans (hexDigits_length w (n / 16)).symm)
    have hd : hexDigit (m % 16) = hexDigit (n % 16) := by
      simpa using h2
    have hmod : m % 16 = n % 16 :=
      hexDigit_inj _ (Nat.mod_lt _ (by norm_num)) _
        (Nat.mod_lt _ (by norm_num)) hd
    have hmlt : m / 16 < 16 ^ w := by
      rw [Nat.div_lt_iff_lt_mul (by norm_num : 0 < 16)]
      calc m < 16 ^ (w + 1) := hm
        _ = 16 ^ w * 16 := by rw [pow_succ]
    have hnlt : n / 16 < 16 ^ w := by
      rw [Nat.div_lt_iff_lt_mul (by norm_num : 0 < 16)]
      calc n < 16 ^ (w + 1) := hn
        _ = 16 ^ w * 16 := by rw [pow_succ]
    have hdiv := ih (m / 16) (n / 16) hmlt hnlt h1
    omega

lemma cashoutActionKey_inj (a b : Address) (ha : a < 16 ^ 40)
    (hb : b < 16 ^ 40) (h : cashoutActionKey a = cashoutActionKey b) :
    a = b := by
  unfold cashoutActionKey at h
  obtain ⟨_, h2⟩ := List.append_inj h rfl
  exact hexDigits_inj 40 a b ha hb h2

lemma lookup_of_mem :
    ∀ (l : List (Key × cashoutAction)) (p : Key × cashoutAction), p ∈ l →
      ∃ b, lookupKey l p.1 = some b := by
  intro l
  induction l with
  | nil =>
    intro p hp
    cases hp
  | cons e rest ih =>
    intro p hp
    by_cases he : e.1 = p.1
    · exact ⟨e.2, by rw [lookupKey_cons, if_pos he]⟩
    · rcases List.mem_cons.mp hp with h | h
      · cases h
        exact absurd rfl he
      · obtain ⟨b, hb⟩ := ih p h
        exact ⟨b, by rw [lookupKey_cons, if_neg he]; exact hb⟩

lemma nodup_lookup :
    ∀ (l : List (Key × cashoutAction)), (l.map Prod.fst).Nodup →
      ∀ p ∈ l, lookupKey l p.1 = some p.2 := by
  intro l
  induction l with
  | nil =>
    intro _ p hp
    cases hp
  | cons e rest ih =>
    intro hnd p hp
    rw [List.map_cons, List.nodup_cons] at hnd
    rcases List.mem_cons.mp hp with h | h
    · cases h
      rw [lookupKey_cons, if_pos rfl]
    · rw [lookupKey_cons]
      by_cases he : e.1 = p.1
      · exact absurd (he ▸ List.mem_map_of_mem Prod.fst h) hnd.1
      · rw [if_neg he]
        exact ih hnd.2 p h

lemma startGo_err (st : StateStore) :
    ∀ (l : List (Key × cashoutAction)), (∀ p ∈ l, p ∈ st.entries) →
      (startGo st l).2 = startErrSpec st l := by
  intro l
  induction l with
  | nil => intro _; rfl
  | cons e rest ih =>
    intro hsub
    have ih2 := ih (fun p hp => hsub p (List.mem_cons_of_mem e hp))
    cases hpre : keyStartsWith cashoutNs e.1 with
    | false => simp [startGo, startErrSpec, hpre, ih2]
    | true =>
      cases hgf : st.getFault e.1 with
      | some err =>
        have hget : st.get e.1 = .error err := by
          unfold StateStore.get
          rw [hgf]
        simp [startGo, startErrSpec, hpre, hgf, hget]
      | none =>
        obtain ⟨b, hb⟩ := lookup_of_mem st.entries e
          (hsub e (List.mem_cons_self e rest))
        have hget : st.get e.1 = .ok b := by
          unfold StateStore.get
          rw [hgf, hb]
        by_cases hif : b.Result = none ∧ b.Reverted = false
        · simp [startGo, startErrSpec, hpre, hgf, hget, hif, ih2]
        · simp [startGo, startErrSpec, hpre, hgf, hget, hif, ih2]

lemma startGo_ok (st : StateStore) :
    ∀ (l : List (Key × cashoutAction)),
      (∀ p ∈ l, st.getFault p.1 = none) →
      (∀ p ∈ l, lookupKey st.entries p.1 = some p.2) →
      startGo st l = (startMonitorsSpec l, none) := by
  intro l
  induction l with
  | nil => intro _ _; rfl
  | cons e rest ih =>
    intro hf hlk
    have ih2 := ih (fun p hp => hf p (List.mem_cons_of_mem e hp))
      (fun p hp => hlk p (List.mem_cons_of_mem e hp))
    have hget : st.get e.1 = .ok e.2 := by
      unfold StateStore.get
      rw [hf e (List.mem_cons_self e rest), hlk e (List.mem_cons_self e rest)]
    cases hpre : keyStartsWith cashoutNs e.1 with
    | false => simp [startGo, startMonitorsSpec, hpre, ih2]
    | true =>
      by_cases hif : e.2.Result = none ∧ e.2.Reverted = false
      · simp [startGo, startMonitorsSpec, hpre, hget, hif, ih2]
      · simp [startGo, startMonitorsSpec, hpre, hget, hif, ih2]

lemma startGo_mem (st : StateStore) :
    ∀ (l : List (Key × cashoutAction)) (m : Address × Hash),
      m ∈ (startGo st l).1 →
      ∃ (k : Key) (action : cashoutAction),
        st.get k = .ok action ∧ keyStartsWith cashoutNs k = true ∧
        action.Result = none ∧ action.Reverted = false ∧
        m = (action.Cheque.Chequebook, action.TxHash) := by
  intro l
  induction l with
  | nil =>
    intro m hm
    cases hm
  | cons e rest ih =>
    intro m hm
    cases hpre : keyStartsWith cashoutNs e.1 with
    | false =>
      rw [show startGo st (e :: rest) = startGo st rest by
        simp [startGo, hpre]] at hm
      exact ih m hm
    | true =>
      cases hget : st.get e.1 with
      | error err =>
        rw [show (startGo st (e :: rest)).1 = [] by
          simp [startGo, hpre, hget]] at hm
        cases hm
      | ok action =>
        by_cases hif : action.Result = none ∧ action.Reverted = false
        · rw [show (startGo st (e :: rest)).1 =
              (action.Cheque.Chequebook, action.TxHash) :: (startGo st rest).1 by
            simp [startGo, hpre, hget, hif]] at hm
          rcases List.mem_cons.mp hm with h | h
          · exact ⟨e.1, action, hget, hpre, hif.1, hif.2, h⟩
          · exact ih m h
        · rw [show startGo st (e :: rest) = startGo st rest by
            simp [startGo, hpre, hget, hif]] at hm
          exact ih m hm

/-- C7: `Start` iterates exactly the persisted entries under the cashout
key namespace; on a fault-free store with functional entries it spawns a
monitor for every in-flight action and no other and returns no error, and
in general it returns the first store error encountered while scanning the
namespace. -/
theorem c7_start_resumes_in_flight (st : StateStore) :
    ((∀ p ∈ st.entries, st.getFault p.1 = none) →
      (st.entries.map Prod.fst).Nodup →
      cashoutService.Start st = (startMonitorsSpec st.entries, none)) ∧
    (cashoutService.Start st).2 = startErrSpec st st.entries := by
  constructor
  · intro hf hnd
    exact startGo_ok st st.entries hf (nodup_lookup st.entries hnd)
  · exact startGo_err st st.entries (fun p hp => hp)

/-- Witness for C7: on the concrete three-entry store, `Start` spawns
exactly the monitor for the one in-flight namespaced action and returns no
error. -/
theorem c7_start_resumes_in_flight_witness :
    cashoutService.Start store7 = (startMonitorsSpec store7.entries, none) ∧
    (cashoutService.Start store7).2 = startErrSpec store7 store7.entries :=
  ⟨(c7_start_resumes_in_flight store7).1 (by decide) (by decide),
    (c7_start_resumes_in_flight store7).2⟩

/-- C10: every monitor resumed by `Start` is bound to the chequebook
address stored inside the action's cheque (and the action's hash), the
action being the one the store `Get` returned for the iterated key — not
to the address encoded in that key; and the cashout key derived from the
cheque's chequebook coincides with the key for an address exactly when the
two addresses are equal. -/
theorem c10_monitor_bound_to_cheque_chequebook :
    (∀ (st : StateStore) (m : Address × Hash),
      m ∈ (cashoutService.Start st).1 →
      ∃ (k : Key) (action : cashoutAction),
        st.get k = .ok action ∧ keyStartsWith cashoutNs k = true ∧
        action.Result = none ∧ action.Reverted = false ∧
        m = (action.Cheque.Chequebook, action.TxHash)) ∧
    (∀ a b : Address, a < 16 ^ 40 → b < 16 ^ 40 →
      (cashoutActionKey b = cashoutActionKey a ↔ b = a)) :=
  ⟨fun st m hm => startGo_mem st st.entries m hm,
    fun a b ha hb =>
      ⟨fun h => cashoutActionKey_inj b a hb ha h, fun h => by rw [h]⟩⟩

/-- Witness for C10: on the concrete store whose action sits under the key
for address 1 but whose cheque names chequebook 2, the resumed monitor is
(2, 77); and the keys for addresses 2 and 1 coincide iff the addresses do. -/
theorem c10_monitor_bound_to_cheque_chequebook_witness :
    (∃ (k : Key) (action : cashoutAction),
      store10.get k = .ok action ∧ keyStartsWith cashoutNs k = true ∧
      action.Result = none ∧ action.Reverted = false ∧
      ((2 : Address), (77 : Hash)) = (action.Cheque.Chequebook, action.TxHash)) ∧
    (cashoutActionKey 2 = cashoutActionKey 1 ↔ 2 = 1) :=
  ⟨c10_monitor_bound_to_cheque_chequebook.1 store10 (2, 77) (by decide),
    c10_monitor_bound_to_cheque_chequebook.2 1 2 (by norm_num) (by norm_num)⟩

end BeeCashout
